import Mathlib

/-!
Verification of the trajectory-conversion core of the
ORB_SLAM3_RGBD_DenseSlamReconstrction repository.

The embedded code is `scripts/02_convert_trajectory.py` (quaternion to
rotation matrix, TUM pose parsing, the Open3D trajectory-log serializer,
the pose-graph serializer, and `main`), together with `load_trajectory`
from `scripts/04_export_point_clouds.py`.

Modelling conventions:
- Python floats are modelled by `ℝ` for the geometric computations
  (`np.sqrt`, matrix inverse) and by `ℚ` for parsed literal values;
  every runtime IEEE double is a rational number, and the claims under
  study are either structural (counts, indices, text shape) or stated
  "within floating tolerance", which we settle exactly over the reals.
- Strings are handled at the `List Char` level with explicit, structurally
  recursive models of Python's `str.strip`, `str.split()` (split on runs
  of whitespace), `str.startswith` and of the builtin `float` on finite
  decimal literals; `f-string` fixed-point formatting `\x7bv:.12f\x7d` is
  modelled by `formatFixed12`.
- Python exceptions are modelled with `Except`/`Option`: an uncaught
  exception aborts the run, so `main` is a total function into a record
  whose output fields are `none` exactly when the script terminates
  before writing the corresponding file.
-/

namespace SlamConv

/-! ### String primitives (models of Python's str methods) -/

/-- Model of Python `str.strip()`: drop leading and trailing whitespace. -/
def strip (cs : List Char) : List Char :=
  ((cs.dropWhile Char.isWhitespace).reverse.dropWhile Char.isWhitespace).reverse

/-- Model of Python `str.startswith('#')` on a character list. -/
def startsWithHash : List Char → Bool
  | [] => false
  | c :: _ => c == '#'

/-- One step of whitespace-splitting: accumulated words and the current
word (reversed). -/
def splitWSStep (acc : List (List Char) × List Char) (c : Char) :
    List (List Char) × List Char :=
  if c.isWhitespace then
    if acc.2.isEmpty then acc else (acc.1 ++ [acc.2.reverse], [])
  else (acc.1, c :: acc.2)

/-- Model of Python `str.split()` with no argument: split on runs of
whitespace, discarding empty fields. -/
def splitWS (cs : List Char) : List (List Char) :=
  let r := cs.foldl splitWSStep ([], [])
  if r.2.isEmpty then r.1 else r.1 ++ [r.2.reverse]

/-! ### A model of the Python builtin `float` on finite decimal literals

`float()` raises `ValueError` on a token it cannot parse; this is
modelled by `none`.  The model covers optional sign, decimal mantissa
with an optional point, and an optional decimal exponent — the grammar
of the finite numeric literals that occur in trajectory files. -/

/-- Parse a nonempty all-digit character list as a natural number. -/
def parseDigits (cs : List Char) : Option ℕ :=
  if cs.isEmpty then none
  else if cs.all Char.isDigit then
    some (cs.foldl (fun n c => 10 * n + (c.toNat - 48)) 0)
  else none

/-- The syntactic pieces of a finite decimal literal: sign, integer-part
value, fraction-part value, number of fraction digits, exponent. -/
structure FloatLit where
  neg : Bool
  ip : ℕ
  fp : ℕ
  fracLen : ℕ
  exp : ℤ
deriving DecidableEq

/-- The rational value denoted by a decimal literal. -/
def FloatLit.toRat (f : FloatLit) : ℚ :=
  (if f.neg then -1 else 1) * ((f.ip : ℚ) + (f.fp : ℚ) / (10 : ℚ) ^ f.fracLen)
    * (10 : ℚ) ^ f.exp

/-- Parse an unsigned decimal mantissa (digits with at most one point,
at least one digit overall, as accepted by Python `float`) into
(integer part, fraction part, number of fraction digits). -/
def parseMantissa (cs : List Char) : Option (ℕ × ℕ × ℕ) :=
  match cs.splitOn '.' with
  | [a] => (parseDigits a).map (fun n => (n, 0, 0))
  | [a, b] =>
    if a.isEmpty && b.isEmpty then none
    else
      match (if a.isEmpty then some 0 else parseDigits a),
            (if b.isEmpty then some 0 else parseDigits b) with
      | some n, some m => some (n, m, b.length)
      | _, _ => none
  | _ => none

/-- Strip an optional leading sign; `true` means negative. -/
def parseSign : List Char → Bool × List Char
  | '-' :: cs => (true, cs)
  | '+' :: cs => (false, cs)
  | cs => (false, cs)

/-- Parse a signed decimal integer (exponent part). -/
def parseSignedInt (cs : List Char) : Option ℤ :=
  match cs with
  | '-' :: ds => (parseDigits ds).map (fun n => -(n : ℤ))
  | '+' :: ds => (parseDigits ds).map (fun n => (n : ℤ))
  | ds => (parseDigits ds).map (fun n => (n : ℤ))

/-- Parse a finite decimal literal into its syntactic pieces. -/
def parseFloatLit (cs : List Char) : Option FloatLit :=
  let t := strip cs
  let sr := parseSign t
  match sr.2.splitOn 'e' with
  | [m] =>
    match m.splitOn 'E' with
    | [m1] => (parseMantissa m1).map (fun p => ⟨sr.1, p.1, p.2.1, p.2.2, 0⟩)
    | [m1, ex] =>
      match parseMantissa m1, parseSignedInt ex with
      | some p, some z => some ⟨sr.1, p.1, p.2.1, p.2.2, z⟩
      | _, _ => none
    | _ => none
  | [m, ex] =>
    match parseMantissa m, parseSignedInt ex with
    | some p, some z => some ⟨sr.1, p.1, p.2.1, p.2.2, z⟩
    | _, _ => none
  | _ => none

/-- Model of the Python builtin `float` on a finite decimal literal
(`none` models an uncaught `ValueError`). -/
def parseFloat (cs : List Char) : Option ℚ :=
  (parseFloatLit cs).map FloatLit.toRat

/-! ### Quaternion to rotation matrix (`quaternion_to_rotation_matrix`) -/

/-- The closed-form quaternion-to-matrix formula applied to the (already
normalized) components, exactly the array literal in
`quaternion_to_rotation_matrix`. -/
def rotFormula (qx qy qz qw : ℝ) : Matrix (Fin 3) (Fin 3) ℝ :=
  Matrix.of
    ![![1 - 2*(qy*qy + qz*qz),     2*(qx*qy - qw*qz),     2*(qx*qz + qw*qy)],
      ![    2*(qx*qy + qw*qz), 1 - 2*(qx*qx + qz*qz),     2*(qy*qz - qw*qx)],
      ![    2*(qx*qz - qw*qy),     2*(qy*qz + qw*qx), 1 - 2*(qx*qx + qy*qy)]]

/-- Embedding of `quaternion_to_rotation_matrix(qx, qy, qz, qw)`: normalize the
quaternion by its Euclidean norm, then apply the closed-form formula.
(The source performs the division unconditionally; for a zero-norm
quaternion NumPy produces non-finite (NaN) entries and raises nothing —
the real-valued model uses the `x / 0 = 0` convention at that single
degenerate point, which no claim about matrix values depends on.) -/
noncomputable def quaternion_to_rotation_matrix (qx qy qz qw : ℝ) :
    Matrix (Fin 3) (Fin 3) ℝ :=
  let norm := Real.sqrt (qx*qx + qy*qy + qz*qz + qw*qw)
  rotFormula (qx/norm) (qy/norm) (qz/norm) (qw/norm)

/-- Embedding of `tum_to_matrix(tx, ty, tz, qx, qy, qz, qw)`: embed the rotation block
and the translation into a 4×4 homogeneous transform (`np.eye(4)` with
the first three rows overwritten). -/
noncomputable def tum_to_matrix (tx ty tz qx qy qz qw : ℝ) :
    Matrix (Fin 4) (Fin 4) ℝ :=
  let R := quaternion_to_rotation_matrix qx qy qz qw
  Matrix.of
    ![![R 0 0, R 0 1, R 0 2, tx],
      ![R 1 0, R 1 1, R 1 2, ty],
      ![R 2 0, R 2 1, R 2 2, tz],
      ![0, 0, 0, 1]]

/-- The 4×4 real matrices that model the NumPy pose arrays. -/
abbrev M4 := Matrix (Fin 4) (Fin 4) ℝ

/-! ### `load_tum_trajectory`: parse the TUM file into (timestamp, matrix) -/

/-- Parse every field of the list with `float`; `none` models the
`ValueError` raised by the first unparsable field. -/
def parseAll : List (List Char) → Option (List ℚ)
  | [] => some []
  | p :: ps =>
    match parseFloat p, parseAll ps with
    | some v, some vs => some (v :: vs)
    | _, _ => none

/-- Parse the first 8 whitespace-separated fields of a pose line with
`float` (`float(parts[0]) .. float(parts[7])`); `none` models the
uncaught `ValueError` raised by the first unparsable field. -/
def parsePoseFields (parts : List (List Char)) :
    Option (ℚ × ℚ × ℚ × ℚ × ℚ × ℚ × ℚ × ℚ) :=
  match parseAll (parts.take 8) with
  | some [t, tx, ty, tz, qx, qy, qz, qw] => some (t, tx, ty, tz, qx, qy, qz, qw)
  | _ => none

/-- Embedding of `load_tum_trajectory`: skip blank lines, lines starting with `#` and
lines with fewer than 8 fields; parse and convert the rest in file
order.  `Except.error` models the uncaught `ValueError` from `float()`,
which aborts the whole run. -/
noncomputable def load_tum_trajectory : List String → Except String (List (ℚ × M4))
  | [] => Except.ok []
  | l :: ls =>
    let s := strip l.data
    if s.isEmpty || startsWithHash s then load_tum_trajectory ls
    else
      let parts := splitWS s
      if parts.length < 8 then load_tum_trajectory ls
      else
        match parsePoseFields parts with
        | none => Except.error ("ValueError: could not convert string to float")
        | some (t, tx, ty, tz, qx, qy, qz, qw) =>
          (load_tum_trajectory ls).map
            (fun ps => (t, tum_to_matrix tx ty tz qx qy qz qw) :: ps)

/-- The loop-body guard of `load_tum_trajectory`: a line is kept (i.e.
parsed rather than skipped) iff after stripping it is nonempty, does not
start with `#`, and has at least 8 whitespace-separated fields. -/
def keepLine (l : String) : Bool :=
  let s := strip l.data
  !(s.isEmpty || startsWithHash s) && decide (8 ≤ (splitWS s).length)

/-- The lines of the input that `load_tum_trajectory` does not skip. -/
def keptLines (lines : List String) : List String := lines.filter keepLine

/-- The pose produced from one kept line (parse the first 8 fields and
convert with `tum_to_matrix`); `none` models the `ValueError`. -/
noncomputable def parseKeptLine (l : String) : Option (ℚ × M4) :=
  match parsePoseFields (splitWS (strip l.data)) with
  | some (t, tx, ty, tz, qx, qy, qz, qw) =>
    some (t, tum_to_matrix tx ty tz qx qy qz qw)
  | none => none

/-! ### `save_open3d_trajectory`: the trajectory-log serializer -/

/-- Decimal digits of `n`, most significant first (structural fuel makes
the definition kernel-reducible; `natToStr` supplies enough fuel). -/
def natDigitsAux : ℕ → ℕ → List Char
  | 0, _ => []
  | f + 1, n =>
    if n < 10 then [Nat.digitChar n]
    else natDigitsAux f (n / 10) ++ [Nat.digitChar (n % 10)]

/-- Decimal rendering of a natural number (model of Python `str(n)`). -/
def natToStr (n : ℕ) : List Char := natDigitsAux (n + 1) n

/-- Round a real to the nearest integer, ties to the even integer —
the rounding used by Python fixed-point formatting. -/
noncomputable def roundHalfEven (t : ℝ) : ℤ :=
  let m := ⌊t⌋
  if t - m < 1/2 then m
  else if 1/2 < t - m then m + 1
  else if Even m then m else m + 1

/-- Exactly 12 decimal digits of the fraction value `r < 10^12`,
most significant first. -/
def frac12 (r : ℕ) : List Char :=
  (List.range 12).map (fun k => Nat.digitChar (r / 10 ^ (11 - k) % 10))

/-- Model of the Python format `f'\x7bv:.12f\x7d'`: optional minus sign,
integer part, a point, and exactly 12 fraction digits.  (Python rounds
the underlying binary double half-to-even; the model rounds the exact
real value.  The sign of a negative value that rounds to zero is
dropped, where Python would print `-0.000000000000`; no claim under
study depends on that character.) -/
noncomputable def formatFixed12 (v : ℝ) : List Char :=
  let r := roundHalfEven (v * 10 ^ 12)
  (if r < 0 then ['-'] else []) ++
    natToStr (r.natAbs / 10 ^ 12) ++ '.' :: frac12 (r.natAbs % 10 ^ 12)

/-- The 16 entries of a 4×4 matrix in row-major order (`T.flatten()`). -/
def flatten16 (T : M4) : List ℝ :=
  [T 0 0, T 0 1, T 0 2, T 0 3, T 1 0, T 1 1, T 1 2, T 1 3,
   T 2 0, T 2 1, T 2 2, T 2 3, T 3 0, T 3 1, T 3 2, T 3 3]

/-- One data line of the trajectory log: the 16 row-major entries,
each formatted with 12 fraction digits, joined by single spaces. -/
noncomputable def poseLine (T : M4) : List Char :=
  List.intercalate [' '] ((flatten16 T).map formatFixed12)

/-- Embedding of `save_open3d_trajectory`: the 4 comment header lines followed by one
line per pose (the file contents as a list of lines). -/
noncomputable def save_open3d_trajectory (poses : List (ℚ × M4)) :
    List (List Char) :=
  ("# Open3D trajectory log").data ::
  (("# Number of poses: ").data ++ natToStr poses.length) ::
  ("# Format: 4x4 transformation matrix (row-major)").data ::
  ("#").data ::
  poses.map (fun p => poseLine p.2)

/-! ### `save_pose_graph_json`: the pose-graph serializer -/

structure PoseGraphNode where
  class_name : String
  version_major : ℕ
  version_minor : ℕ
  pose : M4

structure PoseGraphEdge where
  class_name : String
  version_major : ℕ
  version_minor : ℕ
  source_node_id : ℕ
  target_node_id : ℕ
  transformation : M4
  information : Matrix (Fin 6) (Fin 6) ℝ
  uncertain : Bool

structure PoseGraph where
  class_name : String
  version_major : ℕ
  version_minor : ℕ
  nodes : List PoseGraphNode
  edges : List PoseGraphEdge

/-- Embedding of `save_pose_graph_json`: one node per pose, and for each
`i in range(len(poses) - 1)` one edge `(i, i+1)` whose transformation is
`np.linalg.inv(poses[i][1]) @ poses[i+1][1]`, with a 6×6 identity
information matrix and `uncertain = False`. -/
noncomputable def save_pose_graph_json (poses : List (ℚ × M4)) : PoseGraph :=
  { class_name := "PoseGraph", version_major := 1, version_minor := 0,
    nodes := poses.map (fun p => ⟨"PoseGraphNode", 1, 0, p.2⟩),
    edges := (List.range (poses.length - 1)).map (fun i =>
      ⟨"PoseGraphEdge", 1, 0, i, i + 1,
        (poses.getD i default).2⁻¹ * (poses.getD (i + 1) default).2,
        1, false⟩) }

/-! ### `main` of the converter script -/

/-- Observable outcome of one converter run.  `error` is the uncaught
exception or the fatal `EmptyTrajectory` report (the script prints
`ERROR: No poses found in trajectory file!` and returns); an output
field is `none` exactly when the run ends before writing that file. -/
structure RunResult where
  error : Option String
  stats : Option (ℚ × ℚ)
  outputLog : Option (List (List Char))
  outputJson : Option PoseGraph

/-- Embedding of `main`: load the trajectory; abort with no outputs when zero poses
were parsed; otherwise compute the (purely informational) duration and
average-FPS statistics and write the two output files. -/
noncomputable def main (lines : List String) : RunResult :=
  match load_tum_trajectory lines with
  | Except.error e => ⟨some e, none, none, none⟩
  | Except.ok poses =>
    if poses.length = 0 then ⟨some ("EmptyTrajectory"), none, none, none⟩
    else
      let timestamps := poses.map Prod.fst
      let duration := timestamps.getLastD 0 - timestamps.headD 0
      let avg_fps : ℚ := if 0 < duration then (poses.length : ℚ) / duration else 0
      ⟨none, some (duration, avg_fps), some (save_open3d_trajectory poses),
        some (save_pose_graph_json poses)⟩

/-! ### `load_trajectory` from `04_export_point_clouds.py` -/

/-- Model of `np.array(values).reshape(4, 4)`: row-major reshape of 16 values. -/
def reshape4 (vs : List ℚ) : M4 :=
  Matrix.of fun i j => ((vs.getD (4 * i.val + j.val) 0 : ℚ) : ℝ)

/-- Embedding of `load_trajectory` of the point-cloud exporter: skip comment and
blank lines; parse all fields of a line with `float`, and on a
`ValueError` skip the line and continue (`except ValueError: continue`);
keep exactly the lines with 16 parsed values. -/
noncomputable def load_trajectory : List String → List M4
  | [] => []
  | l :: ls =>
    let s := strip l.data
    if startsWithHash s || s.isEmpty then load_trajectory ls
    else
      match parseAll (splitWS s) with
      | none => load_trajectory ls
      | some values =>
        if values.length = 16 then reshape4 values :: load_trajectory ls
        else load_trajectory ls

/-! ### Concrete inputs used by the witnesses -/

/-- Two identity poses (timestamps 0 and 1). -/
noncomputable def demoPoses : List (ℚ × M4) := [(0, 1), (1, 1)]

/-- The two-line identity-pose input of the spec's concrete test. -/
def demoLines : List String := ["0.0 0 0 0 0 0 0 1", "1.0 0 0 0 0 0 0 1"]

/-- An arbitrary edge, used only as the default of `List.getD`. -/
noncomputable def dEdge : PoseGraphEdge := ⟨"", 0, 0, 0, 0, 1, 1, false⟩

/-- A blank line, a comment, a short line and one valid pose line. -/
def demoMixedLines : List String := ["", "# comment", "1 2 3", "0 0 0 0 0 0 0 1"]

/-- Comment and blank lines only. -/
def demoCommentLines : List String := ["# a", "", "   "]

/-! ## Theorems -/

/-- On a quaternion that already has unit norm, the normalization step
of `quaternion_to_rotation_matrix` is the identity. -/
lemma quaternion_to_rotation_matrix_of_norm_one (x y z w : ℝ)
    (h : x*x + y*y + z*z + w*w = 1) :
    quaternion_to_rotation_matrix x y z w = rotFormula x y z w := by
  simp only [quaternion_to_rotation_matrix, h, Real.sqrt_one, div_one]

/-- Claim C4: for every unit quaternion (Euclidean norm 1), the matrix
produced by `quaternion_to_rotation_matrix` is orthonormal: `R * Rᵀ` is
the identity and `det R = 1`, exactly over the reals. -/
theorem quaternion_rotation_orthonormal (x y z w : ℝ)
    (h : x*x + y*y + z*z + w*w = 1) :
    quaternion_to_rotation_matrix x y z w *
        Matrix.transpose (quaternion_to_rotation_matrix x y z w) = 1 ∧
      (quaternion_to_rotation_matrix x y z w).det = 1 := by
  rw [quaternion_to_rotation_matrix_of_norm_one x y z w h]
  constructor
  · have hT : Matrix.transpose (rotFormula x y z w) = Matrix.of
        ![![1 - 2*(y*y + z*z),     2*(x*y + w*z),     2*(x*z - w*y)],
          ![    2*(x*y - w*z), 1 - 2*(x*x + z*z),     2*(y*z + w*x)],
          ![    2*(x*z + w*y),     2*(y*z - w*x), 1 - 2*(x*x + y*y)]] := by
      ext i j
      fin_cases i <;> fin_cases j <;> rfl
    rw [hT]
    ext i j
    fin_cases i <;> fin_cases j <;>
      simp [rotFormula, Matrix.mul_apply, Fin.sum_univ_succ, Matrix.one_apply]
    · linear_combination (4*y*y + 4*z*z) * h
    · linear_combination (-4*x*y) * h
    · linear_combination (-4*x*z) * h
    · linear_combination (-4*x*y) * h
    · linear_combination (4*x*x + 4*z*z) * h
    · linear_combination (-4*y*z) * h
    · linear_combination (-4*x*z) * h
    · linear_combination (-4*y*z) * h
    · linear_combination (4*x*x + 4*y*y) * h
  · rw [Matrix.det_fin_three]
    simp [rotFormula]
    linear_combination (4*x*x + 4*y*y + 4*z*z) * h

/-- Witness for C4 at the identity quaternion (0, 0, 0, 1). -/
theorem quaternion_rotation_orthonormal_witness :
    (0 : ℝ)*0 + 0*0 + 0*0 + 1*1 = 1 ∧
      (quaternion_to_rotation_matrix 0 0 0 1 *
          Matrix.transpose (quaternion_to_rotation_matrix 0 0 0 1) = 1 ∧
        (quaternion_to_rotation_matrix 0 0 0 1).det = 1) :=
  ⟨by norm_num, quaternion_rotation_orthonormal 0 0 0 1 (by norm_num)⟩

/-- Claim C5: the converter is scale invariant — a quaternion with
nonzero norm and its pre-normalized version yield the same matrix. -/
theorem quaternion_rotation_scale_invariant (x y z w : ℝ)
    (h : x*x + y*y + z*z + w*w ≠ 0) :
    quaternion_to_rotation_matrix x y z w =
      quaternion_to_rotation_matrix
        (x / Real.sqrt (x*x + y*y + z*z + w*w))
        (y / Real.sqrt (x*x + y*y + z*z + w*w))
        (z / Real.sqrt (x*x + y*y + z*z + w*w))
        (w / Real.sqrt (x*x + y*y + z*z + w*w)) := by
  have hs : 0 < x*x + y*y + z*z + w*w := by
    have h0 : (0:ℝ) ≤ x*x + y*y + z*z + w*w := by
      nlinarith [mul_self_nonneg x, mul_self_nonneg y, mul_self_nonneg z, mul_self_nonneg w]
    rcases lt_or_eq_of_le h0 with h' | h'
    · exact h'
    · exact absurd h'.symm h
  set n := Real.sqrt (x*x + y*y + z*z + w*w) with hn
  have hnn : n * n = x*x + y*y + z*z + w*w := Real.mul_self_sqrt hs.le
  have h1 : (x/n)*(x/n) + (y/n)*(y/n) + (z/n)*(z/n) + (w/n)*(w/n) = 1 := by
    have hne : n * n ≠ 0 := by rw [hnn]; exact hs.ne'
    field_simp
    linarith [hnn]
  rw [quaternion_to_rotation_matrix_of_norm_one _ _ _ _ h1]
  simp only [quaternion_to_rotation_matrix, hn]

/-- Witness for C5 at the non-unit quaternion (0, 0, 0, 2). -/
theorem quaternion_rotation_scale_invariant_witness :
    (0 : ℝ)*0 + 0*0 + 0*0 + 2*2 ≠ 0 ∧
      quaternion_to_rotation_matrix 0 0 0 2 =
        quaternion_to_rotation_matrix
          (0 / Real.sqrt ((0:ℝ)*0 + 0*0 + 0*0 + 2*2))
          (0 / Real.sqrt ((0:ℝ)*0 + 0*0 + 0*0 + 2*2))
          (0 / Real.sqrt ((0:ℝ)*0 + 0*0 + 0*0 + 2*2))
          (2 / Real.sqrt ((0:ℝ)*0 + 0*0 + 0*0 + 2*2)) :=
  ⟨by norm_num, quaternion_rotation_scale_invariant 0 0 0 2 (by norm_num)⟩

/-! ### Structure of the serialized pose graph -/

lemma save_pose_graph_nodes_length (poses : List (ℚ × M4)) :
    (save_pose_graph_json poses).nodes.length = poses.length := by
  simp [save_pose_graph_json]

lemma save_pose_graph_edges_length (poses : List (ℚ × M4)) :
    (save_pose_graph_json poses).edges.length = poses.length - 1 := by
  simp [save_pose_graph_json]

lemma save_pose_graph_edge_get (poses : List (ℚ × M4)) (i : ℕ)
    (h : i < (save_pose_graph_json poses).edges.length) :
    (save_pose_graph_json poses).edges.get ⟨i, h⟩ =
      ⟨"PoseGraphEdge", 1, 0, i, i + 1,
        (poses.getD i default).2⁻¹ * (poses.getD (i + 1) default).2, 1, false⟩ := by
  simp [save_pose_graph_json]

/-- Claim C1: for every pose sequence with at least two poses, edge `i`
of the serialized pose graph carries the transformation
`(pose i)⁻¹ * pose (i+1)` (matrix inverse of the earlier absolute pose
composed with the later one), and therefore — whenever `pose i` is
invertible, which `np.linalg.inv` presupposes —
`pose i * edge i = pose (i+1)` exactly. -/
theorem pose_graph_edge_relative_transform (poses : List (ℚ × M4)) (i : ℕ)
    (hi1 : i < poses.length) (hi2 : i + 1 < poses.length)
    (he : i < (save_pose_graph_json poses).edges.length)
    (hdet : IsUnit ((poses.get ⟨i, hi1⟩).2.det)) :
    ((save_pose_graph_json poses).edges.get ⟨i, he⟩).transformation =
      ((poses.get ⟨i, hi1⟩).2)⁻¹ * (poses.get ⟨i + 1, hi2⟩).2 ∧
    (poses.get ⟨i, hi1⟩).2 *
        ((save_pose_graph_json poses).edges.get ⟨i, he⟩).transformation =
      (poses.get ⟨i + 1, hi2⟩).2 := by
  have h1 : ((save_pose_graph_json poses).edges.get ⟨i, he⟩).transformation =
      ((poses.get ⟨i, hi1⟩).2)⁻¹ * (poses.get ⟨i + 1, hi2⟩).2 := by
    rw [save_pose_graph_edge_get poses i he]
    simp only [List.getD_eq_getElem _ _ hi1, List.getD_eq_getElem _ _ hi2,
      List.get_eq_getElem]
  refine ⟨h1, ?_⟩
  rw [h1, ← Matrix.mul_assoc, Matrix.mul_nonsing_inv _ hdet, Matrix.one_mul]

/-- Witness for C1: two identity poses; the edge transformation is
`1⁻¹ * 1` and composing it with the first pose gives the second. -/
theorem pose_graph_edge_relative_transform_witness :
    ((save_pose_graph_json demoPoses).edges.getD 0 dEdge).transformation =
      ((1 : M4))⁻¹ * (1 : M4) ∧
    (1 : M4) * ((save_pose_graph_json demoPoses).edges.getD 0 dEdge).transformation =
      (1 : M4) := by
  have he : 0 < (save_pose_graph_json demoPoses).edges.length := by
    rw [save_pose_graph_edges_length]; simp [demoPoses]
  have h1 : 0 < demoPoses.length := by simp [demoPoses]
  have h2 : 0 + 1 < demoPoses.length := by simp [demoPoses]
  obtain ⟨ha, hb⟩ := pose_graph_edge_relative_transform demoPoses 0 h1 h2 he
    (by simp [demoPoses])
  rw [List.get_eq_getElem] at ha hb
  rw [List.getD_eq_getElem _ _ he]
  simp only [demoPoses, List.getElem_cons_zero, List.getElem_cons_succ] at ha hb
  exact ⟨ha, hb⟩

/-- Claim C2: for any pose sequence, the pose graph has one node per
pose (node `k` carrying the `k`-th absolute transform, in input order)
and `length - 1` edges, edge `i` joining node `i` to node `i + 1`;
no other edge exists. -/
theorem pose_graph_shape (poses : List (ℚ × M4)) (hN : 1 ≤ poses.length) :
    (save_pose_graph_json poses).nodes.length = poses.length ∧
    (∀ k (hk : k < (save_pose_graph_json poses).nodes.length)
        (hk' : k < poses.length),
      ((save_pose_graph_json poses).nodes.get ⟨k, hk⟩).pose =
        (poses.get ⟨k, hk'⟩).2) ∧
    (save_pose_graph_json poses).edges.length = poses.length - 1 ∧
    (∀ i (hi : i < (save_pose_graph_json poses).edges.length),
      ((save_pose_graph_json poses).edges.get ⟨i, hi⟩).source_node_id = i ∧
      ((save_pose_graph_json poses).edges.get ⟨i, hi⟩).target_node_id = i + 1) := by
  refine ⟨save_pose_graph_nodes_length poses, ?_,
    save_pose_graph_edges_length poses, ?_⟩
  · intro k hk hk'
    simp [save_pose_graph_json, List.get_eq_getElem]
  · intro i hi
    rw [save_pose_graph_edge_get poses i hi]
    exact ⟨rfl, rfl⟩

/-- Witness for C2 on the two-pose sequence: 2 nodes, 1 edge, joining
node 0 to node 1. -/
theorem pose_graph_shape_witness :
    (save_pose_graph_json demoPoses).nodes.length = 2 ∧
    (save_pose_graph_json demoPoses).edges.length = 1 ∧
    ((save_pose_graph_json demoPoses).edges.getD 0 dEdge).source_node_id = 0 ∧
    ((save_pose_graph_json demoPoses).edges.getD 0 dEdge).target_node_id = 1 := by
  obtain ⟨h1, h2, h3, h4⟩ := pose_graph_shape demoPoses (by simp [demoPoses])
  have he : 0 < (save_pose_graph_json demoPoses).edges.length := by
    rw [h3]; simp [demoPoses]
  obtain ⟨hs, ht⟩ := h4 0 he
  rw [List.get_eq_getElem] at hs ht
  refine ⟨by rw [h1]; simp [demoPoses], by rw [h3]; simp [demoPoses], ?_, ?_⟩
  · rw [List.getD_eq_getElem _ _ he]; exact hs
  · rw [List.getD_eq_getElem _ _ he]; exact ht

/-! ### Behaviour of the TUM parser -/

/-- One unfolding step of `load_tum_trajectory`, phrased through the
`keepLine` guard. -/
lemma load_tum_cons (l : String) (ls : List String) :
    load_tum_trajectory (l :: ls) =
      if keepLine l = true then
        match parsePoseFields (splitWS (strip l.data)) with
        | none => Except.error ("ValueError: could not convert string to float")
        | some (t, tx, ty, tz, qx, qy, qz, qw) =>
          (load_tum_trajectory ls).map
            (fun ps => (t, tum_to_matrix tx ty tz qx qy qz qw) :: ps)
      else load_tum_trajectory ls := by
  simp only [load_tum_trajectory, keepLine]
  by_cases h1 : ((strip l.data).isEmpty || startsWithHash (strip l.data)) = true
  · simp [h1]
  · by_cases h2 : (splitWS (strip l.data)).length < 8
    · simp [h1, h2, Nat.not_le.mpr h2]
    · simp [h1, h2, Nat.not_lt.mp h2]

lemma keptLines_cons_of_keep (l : String) (ls : List String)
    (h : keepLine l = true) : keptLines (l :: ls) = l :: keptLines ls := by
  simp [keptLines, List.filter_cons, h]

lemma keptLines_cons_of_skip (l : String) (ls : List String)
    (h : keepLine l = false) : keptLines (l :: ls) = keptLines ls := by
  simp [keptLines, List.filter_cons, h]

/-- When every kept line parses, the parser returns, in file order,
exactly the poses of the kept lines. -/
lemma load_tum_eq_filterMap (lines : List String)
    (h : ∀ l ∈ keptLines lines, (parseKeptLine l).isSome = true) :
    load_tum_trajectory lines =
      Except.ok ((keptLines lines).filterMap parseKeptLine) := by
  induction lines with
  | nil => rfl
  | cons l ls ih =>
    rw [load_tum_cons]
    by_cases hk : keepLine l = true
    · rw [if_pos hk, keptLines_cons_of_keep l ls hk]
      have hs : (parseKeptLine l).isSome = true := by
        refine h l ?_
        rw [keptLines_cons_of_keep l ls hk]
        exact List.mem_cons_self l _
      cases hp : parsePoseFields (splitWS (strip l.data)) with
      | none => rw [parseKeptLine, hp] at hs; simp at hs
      | some p =>
        obtain ⟨t, tx, ty, tz, qx, qy, qz, qw⟩ := p
        have htl : ∀ x ∈ keptLines ls, (parseKeptLine x).isSome = true := by
          intro x hx
          refine h x ?_
          rw [keptLines_cons_of_keep l ls hk]
          exact List.mem_cons_of_mem l hx
        have hpk : parseKeptLine l = some (t, tum_to_matrix tx ty tz qx qy qz qw) := by
          simp only [parseKeptLine, hp]
        simp [ih htl, List.filterMap_cons, hpk, Except.map]
    · have hk' : keepLine l = false := by
        revert hk; cases keepLine l <;> simp
      rw [if_neg hk, keptLines_cons_of_skip l ls hk']
      refine ih (fun x hx => h x ?_)
      rw [keptLines_cons_of_skip l ls hk']
      exact hx

lemma filterMap_length_of_all_isSome {α β : Type} (f : α → Option β) :
    ∀ l : List α, (∀ x ∈ l, (f x).isSome = true) →
      (l.filterMap f).length = l.length := by
  intro l
  induction l with
  | nil => intro _; rfl
  | cons a as ih =>
    intro h
    cases hf : f a with
    | none =>
      have := h a (List.mem_cons_self a as)
      rw [hf] at this; simp at this
    | some b =>
      simp only [List.filterMap_cons, hf, List.length_cons]
      rw [ih (fun x hx => h x (List.mem_cons_of_mem a hx))]

/-- Claim C6: the parser skips, without error, every blank line, every
line starting with `#`, and every line with fewer than 8 fields, and —
provided every remaining line parses — returns exactly the remaining
lines, one pose per line, in file order. -/
theorem load_skips_and_preserves_order (lines : List String)
    (h : ∀ l ∈ keptLines lines, (parseKeptLine l).isSome = true) :
    (∀ l : String, keepLine l = false ↔
      (strip l.data = [] ∨ startsWithHash (strip l.data) = true ∨
        (splitWS (strip l.data)).length < 8)) ∧
    load_tum_trajectory lines =
      Except.ok ((keptLines lines).filterMap parseKeptLine) ∧
    ((keptLines lines).filterMap parseKeptLine).length =
      (keptLines lines).length := by
  refine ⟨?_, load_tum_eq_filterMap lines h,
    filterMap_length_of_all_isSome _ _ h⟩
  intro l
  rw [keepLine, Bool.and_eq_false_iff]
  simp only [Bool.not_eq_false', Bool.or_eq_true, List.isEmpty_iff,
    startsWithHash, decide_eq_false_iff_not, Nat.not_le, or_assoc]

/-- Witness for C6 on a blank line, a comment, a 3-field line and one
valid pose line: only the pose line is kept and parsed. -/
theorem load_skips_and_preserves_order_witness :
    keptLines demoMixedLines = [("0 0 0 0 0 0 0 1" : String)] ∧
    load_tum_trajectory demoMixedLines =
      Except.ok ((keptLines demoMixedLines).filterMap parseKeptLine) ∧
    ((keptLines demoMixedLines).filterMap parseKeptLine).length = 1 := by
  have h := load_skips_and_preserves_order demoMixedLines (by decide)
  exact ⟨by decide, h.2.1, by rw [h.2.2]; decide⟩

/-! ### Empty-trajectory behaviour of `main` -/

lemma load_tum_of_all_skipped (lines : List String)
    (h : ∀ l ∈ lines, keepLine l = false) :
    load_tum_trajectory lines = Except.ok [] := by
  have hk : keptLines lines = [] := by
    simp only [keptLines]
    rw [List.filter_eq_nil_iff]
    intro a ha
    rw [h a ha]
    simp
  have hh : ∀ l ∈ keptLines lines, (parseKeptLine l).isSome = true := by
    rw [hk]; intro l hl; exact absurd hl (List.not_mem_nil l)
  rw [load_tum_eq_filterMap lines hh, hk]
  rfl

/-- Claim C7: an input of only comment and blank lines parses to zero
poses; the run reports the empty-trajectory error and terminates with
neither output file written (and no statistics). -/
theorem empty_trajectory_no_output (lines : List String)
    (h : ∀ l ∈ lines, strip l.data = [] ∨ startsWithHash (strip l.data) = true) :
    main lines = ⟨some ("EmptyTrajectory"), none, none, none⟩ := by
  have hload : load_tum_trajectory lines = Except.ok [] := by
    apply load_tum_of_all_skipped
    intro l hl
    rcases h l hl with h' | h'
    · simp [keepLine, h']
    · simp [keepLine, h']
  simp [main, hload]

/-- Witness for C7 on a comment line, an empty line and a
whitespace-only line. -/
theorem empty_trajectory_no_output_witness :
    main demoCommentLines = ⟨some ("EmptyTrajectory"), none, none, none⟩ :=
  empty_trajectory_no_output demoCommentLines (by decide)

/-! ### Trajectory statistics -/

/-- Claim C9: on a successfully parsed non-empty pose sequence, `main`
computes duration = last timestamp − first timestamp and average rate =
pose count / duration when the duration is positive (0 otherwise), and
both serialized outputs are the pure serializers applied to the pose
sequence — the statistics have no effect on them. -/
theorem trajectory_statistics (lines : List String) (ps : List (ℚ × M4))
    (h : load_tum_trajectory lines = Except.ok ps) (hne : ps.isEmpty = false) :
    (main lines).stats =
      some ((ps.map Prod.fst).getLastD 0 - (ps.map Prod.fst).headD 0,
        if 0 < (ps.map Prod.fst).getLastD 0 - (ps.map Prod.fst).headD 0 then
          (ps.length : ℚ) /
            ((ps.map Prod.fst).getLastD 0 - (ps.map Prod.fst).headD 0)
        else 0) ∧
    (main lines).outputLog = some (save_open3d_trajectory ps) ∧
    (main lines).outputJson = some (save_pose_graph_json ps) := by
  have hlen : ps.length ≠ 0 := by
    cases ps with
    | nil => simp at hne
    | cons a l => simp
  simp [main, h, hlen]

/-- Witness for C9: the spec's two-line identity-pose input, one second
apart — duration 1, average rate 2. -/
theorem trajectory_statistics_witness : (main demoLines).stats = some (1, 2) := by
  have hload : load_tum_trajectory demoLines = Except.ok
      [(FloatLit.toRat ⟨false, 0, 0, 1, 0⟩,
        tum_to_matrix (FloatLit.toRat ⟨false, 0, 0, 0, 0⟩)
          (FloatLit.toRat ⟨false, 0, 0, 0, 0⟩) (FloatLit.toRat ⟨false, 0, 0, 0, 0⟩)
          (FloatLit.toRat ⟨false, 0, 0, 0, 0⟩) (FloatLit.toRat ⟨false, 0, 0, 0, 0⟩)
          (FloatLit.toRat ⟨false, 0, 0, 0, 0⟩) (FloatLit.toRat ⟨false, 1, 0, 0, 0⟩)),
       (FloatLit.toRat ⟨false, 1, 0, 1, 0⟩,
        tum_to_matrix (FloatLit.toRat ⟨false, 0, 0, 0, 0⟩)
          (FloatLit.toRat ⟨false, 0, 0, 0, 0⟩) (FloatLit.toRat ⟨false, 0, 0, 0, 0⟩)
          (FloatLit.toRat ⟨false, 0, 0, 0, 0⟩) (FloatLit.toRat ⟨false, 0, 0, 0, 0⟩)
          (FloatLit.toRat ⟨false, 0, 0, 0, 0⟩) (FloatLit.toRat ⟨false, 1, 0, 0, 0⟩))] :=
    rfl
  obtain ⟨h1, h2, h3⟩ := trajectory_statistics demoLines _ hload rfl
  rw [h1]
  norm_num [FloatLit.toRat]

/-! ### Zero-norm quaternions do not abort the run -/

/-- Counterexample to claim C3 as stated: on the input consisting of the
single pose line with the all-zero quaternion, the run raises nothing
(`error = none`) and writes both output files — it does not abort. -/
theorem zero_quaternion_counterexample :
    (main [("0 0 0 0 0 0 0 0")]).error = none ∧
    (main [("0 0 0 0 0 0 0 0")]).outputLog.isSome = true ∧
    (main [("0 0 0 0 0 0 0 0")]).outputJson.isSome = true :=
  ⟨by decide, by decide, by decide⟩

/-- Claim C3 amended: the code contains no `DegenerateQuaternion` check;
any kept, parseable pose line — the zero-norm quaternion line included —
is converted unconditionally (NumPy yields NaN entries for the zero
quaternion and raises nothing), and the run completes and writes both
output files. -/
theorem zero_quaternion_no_abort (l : String) (hk : keepLine l = true)
    (hp : (parseKeptLine l).isSome = true) :
    (main [l]).error = none ∧
    (main [l]).outputLog.isSome = true ∧
    (main [l]).outputJson.isSome = true := by
  have hkl : keptLines [l] = [l] := by
    simp [keptLines, List.filter_cons, hk]
  have hall : ∀ x ∈ keptLines [l], (parseKeptLine x).isSome = true := by
    rw [hkl]
    intro x hx
    rcases List.mem_singleton.mp hx with rfl
    exact hp
  have hload := load_tum_eq_filterMap [l] hall
  rw [hkl] at hload
  obtain ⟨p, hp'⟩ := Option.isSome_iff_exists.mp hp
  rw [show List.filterMap parseKeptLine [l] = [p] by
    simp [List.filterMap_cons, hp']] at hload
  simp [main, hload]

/-- Witness for the amended C3 at the zero-quaternion line. -/
theorem zero_quaternion_no_abort_witness :
    keepLine ("0 0 0 0 0 0 0 0") = true ∧
    ((main [("0 0 0 0 0 0 0 0")]).outputLog.isSome = true ∧
      (main [("0 0 0 0 0 0 0 0")]).outputJson.isSome = true) :=
  ⟨by decide, (zero_quaternion_no_abort _ (by decide) (by decide)).2⟩

/-! ### The two loaders disagree on unparsable kept lines -/

lemma parseAll_eq_none_of_mem (ps : List (List Char)) (p : List Char)
    (hp : p ∈ ps) (h : parseFloat p = none) : parseAll ps = none := by
  induction ps with
  | nil => cases hp
  | cons a as ih =>
    rcases List.mem_cons.mp hp with rfl | hmem
    · simp [parseAll, h]
    · simp only [parseAll, ih hmem]
      cases parseFloat a <;> rfl

/-- Claim C10: on a non-blank, non-comment line with at least 8 fields
whose first 8 fields contain an unparsable one, the trajectory
converter's parser raises (aborting the whole run with an error),
while the point-cloud exporter's loader catches the error, skips the
line, and continues with the remaining lines. -/
theorem loader_policies_diverge (l : String) (rest : List String)
    (h1 : strip l.data ≠ [])
    (h2 : startsWithHash (strip l.data) = false)
    (h3 : 8 ≤ (splitWS (strip l.data)).length)
    (h4 : ∃ f ∈ (splitWS (strip l.data)).take 8, parseFloat f = none) :
    (∃ e, load_tum_trajectory (l :: rest) = Except.error e) ∧
    load_trajectory (l :: rest) = load_trajectory rest := by
  obtain ⟨f, hf, hfn⟩ := h4
  have hpa8 : parseAll ((splitWS (strip l.data)).take 8) = none :=
    parseAll_eq_none_of_mem _ f hf hfn
  have hpaAll : parseAll (splitWS (strip l.data)) = none :=
    parseAll_eq_none_of_mem _ f (List.mem_of_mem_take hf) hfn
  have he : (strip l.data).isEmpty = false := by
    simp [List.isEmpty_iff, h1]
  constructor
  · refine ⟨("ValueError: could not convert string to float"), ?_⟩
    simp [load_tum_trajectory, he, h2, Nat.not_lt.mpr h3, parsePoseFields, hpa8]
  · simp [load_trajectory, he, h2, hpaAll]

/-- Witness for C10: a pose line whose 7th field is not a number. -/
theorem loader_policies_diverge_witness :
    (∃ e, load_tum_trajectory [("0 0 0 0 0 0 abc 1"), ("0 0 0 0 0 0 0 1")] =
      Except.error e) ∧
    load_trajectory [("0 0 0 0 0 0 abc 1"), ("0 0 0 0 0 0 0 1")] =
      load_trajectory [("0 0 0 0 0 0 0 1")] :=
  loader_policies_diverge ("0 0 0 0 0 0 abc 1") [("0 0 0 0 0 0 0 1")]
    (by decide) (by decide) (by decide) (by decide)

/-! ### Shape of the trajectory log -/

lemma digitChar_isDigit : ∀ m : ℕ, m < 10 → (Nat.digitChar m).isDigit = true := by
  decide

lemma natDigitsAux_all_digit :
    ∀ f n : ℕ, ∀ c ∈ natDigitsAux f n, c.isDigit = true := by
  intro f
  induction f with
  | zero => intro n c hc; simp [natDigitsAux] at hc
  | succ f ih =>
    intro n c hc
    rw [natDigitsAux] at hc
    by_cases h : n < 10
    · rw [if_pos h] at hc
      rcases List.mem_singleton.mp hc with rfl
      exact digitChar_isDigit n h
    · rw [if_neg h] at hc
      rcases List.mem_append.mp hc with h' | h'
      · exact ih _ c h'
      · rcases List.mem_singleton.mp h' with rfl
        exact digitChar_isDigit _ (Nat.mod_lt n (by norm_num))

lemma natToStr_all_digit (n : ℕ) : ∀ c ∈ natToStr n, c.isDigit = true :=
  natDigitsAux_all_digit (n + 1) n

lemma frac12_length (r : ℕ) : (frac12 r).length = 12 := by simp [frac12]

lemma frac12_all_digit (r : ℕ) : ∀ c ∈ frac12 r, c.isDigit = true := by
  intro c hc
  simp only [frac12, List.mem_map] at hc
  obtain ⟨k, _, rfl⟩ := hc
  exact digitChar_isDigit _ (Nat.mod_lt _ (by norm_num))

/-- Every formatted value splits as (sign and integer digits) ++ point
++ exactly 12 fraction digits. -/
lemma formatFixed12_shape (v : ℝ) :
    ∃ a b, formatFixed12 v = a ++ '.' :: b ∧ b.length = 12 ∧
      (∀ c ∈ a, c = '-' ∨ c.isDigit = true) ∧ (∀ c ∈ b, c.isDigit = true) := by
  refine ⟨(if roundHalfEven (v * 10 ^ 12) < 0 then ['-'] else []) ++
      natToStr ((roundHalfEven (v * 10 ^ 12)).natAbs / 10 ^ 12),
    frac12 ((roundHalfEven (v * 10 ^ 12)).natAbs % 10 ^ 12),
    by rw [formatFixed12, List.append_assoc], frac12_length _, ?_,
    frac12_all_digit _⟩
  intro c hc
  rcases List.mem_append.mp hc with h' | h'
  · left
    split at h'
    · exact List.mem_singleton.mp h'
    · cases h'
  · right
    exact natToStr_all_digit _ c h'

lemma isDigit_ne_dot {c : Char} (h : c.isDigit = true) : c ≠ '.' := by
  intro rfl'
  subst rfl'
  simp at h

lemma isDigit_ne_space {c : Char} (h : c.isDigit = true) : c ≠ ' ' := by
  intro rfl'
  subst rfl'
  simp at h

/-- Claim C8: the trajectory-log serializer writes exactly 4 comment
header lines (stating format and pose count) followed by one line per
transform; each data line is the transform's 16 row-major entries, each
formatted with exactly 12 fraction digits after the decimal point,
joined by single spaces; and serialization is deterministic. -/
theorem trajectory_log_format (poses : List (ℚ × M4)) :
    (save_open3d_trajectory poses).length = 4 + poses.length ∧
    (save_open3d_trajectory poses).take 4 =
      [("# Open3D trajectory log").data,
       ("# Number of poses: ").data ++ natToStr poses.length,
       ("# Format: 4x4 transformation matrix (row-major)").data,
       ("#").data] ∧
    (save_open3d_trajectory poses).drop 4 = poses.map (fun p => poseLine p.2) ∧
    (∀ T : M4,
      poseLine T = List.intercalate [' '] ((flatten16 T).map formatFixed12) ∧
      ((flatten16 T).map formatFixed12).length = 16 ∧
      (∀ t ∈ (flatten16 T).map formatFixed12,
        (∃ a b, t = a ++ '.' :: b ∧ b.length = 12 ∧ '.' ∉ b) ∧ ' ' ∉ t)) ∧
    save_open3d_trajectory poses = save_open3d_trajectory poses := by
  refine ⟨by simp [save_open3d_trajectory]; try omega, rfl, rfl, ?_, rfl⟩
  intro T
  refine ⟨rfl, by simp [flatten16], ?_⟩
  intro t ht
  rw [List.mem_map] at ht
  obtain ⟨v, _, rfl⟩ := ht
  obtain ⟨a, b, hab, hb, ha', hb'⟩ := formatFixed12_shape v
  constructor
  · exact ⟨a, b, hab, hb, fun hdot => isDigit_ne_dot (hb' _ hdot) rfl⟩
  · rw [hab]
    intro hsp
    rcases List.mem_append.mp hsp with h' | h'
    · rcases ha' _ h' with h'' | h''
      · exact absurd h'' (by decide)
      · exact isDigit_ne_space h'' rfl
    · rcases List.mem_cons.mp h' with h'' | h''
      · exact absurd h'' (by decide)
      · exact isDigit_ne_space (hb' _ h'') rfl

/-- Witness for C8 on the two-pose input: 4 + 2 lines, and a concrete
formatted entry decomposes with exactly 12 fraction digits. -/
theorem trajectory_log_format_witness :
    (save_open3d_trajectory demoPoses).length = 4 + 2 ∧
    (∃ a b, formatFixed12 ((1 : M4) 0 0) = a ++ '.' :: b ∧ b.length = 12 ∧
      '.' ∉ b) := by
  obtain ⟨h1, h2, h3, h4, h5⟩ := trajectory_log_format demoPoses
  refine ⟨by rw [h1]; simp [demoPoses], ?_⟩
  obtain ⟨hline, hlen, htok⟩ := h4 1
  have hmem : formatFixed12 ((1 : M4) 0 0) ∈ (flatten16 (1 : M4)).map formatFixed12 := by
    refine List.mem_map_of_mem _ ?_
    simp [flatten16]
  exact (htok _ hmem).1

end SlamConv
